import Mathlib

/-!
Verification of the core retrieval/response pipeline of the
Pet-Symptom-Checker repository (`src/rag_system.py`, class `SnoutiqRAG`).

The Python code is shallowly embedded as executable Lean definitions:

* Python strings are `String`; `str.lower`, the `in` substring test and
  `str.replace` are embedded as `strLower`, `strContains`, `strReplace`
  (ASCII-faithful, structural recursion so everything evaluates).
* Float similarity scores are modelled as rationals `ℚ`.
* Python dicts with fixed key sets (`metadata` entries, `pet_details`) are
  structures with `Option String` fields; `d.get(k, default)` is
  `field.getD default`.
* External library boundaries are parameters: the embedding model together
  with the FAISS inner-product index is a function
  `indexSearch : String → Nat → List (ℚ × Nat)` returning (score, position)
  pairs for an (expanded) query and a requested count; the Gemini call is an
  `LLMResult` (an exception or a returned text); `json.loads` is a function
  `String → Option ResponseObj`.
* The JSON response dict is an association list `List (String × JVal)`.
-/

namespace SnoutiqSpec

/-! ### Embedded Python string primitives -/

/-- Substring test on character lists: `containsSub hay needle` is Python
`needle in hay` (true at some offset the needle is a prefix of the rest). -/
def containsSub : List Char → List Char → Bool
  | [], needle => needle.isEmpty
  | c :: rest, needle => needle.isPrefixOf (c :: rest) || containsSub rest needle

/-- Python `str.lower()` (ASCII-faithful). -/
def strLower (s : String) : String := String.mk (s.data.map Char.toLower)

/-- Python `needle in hay` on strings. -/
def strContains (hay needle : String) : Bool := containsSub hay.data needle.data

/-- Fuel-indexed worker for `strReplace`: replaces occurrences of `pat`
left-to-right, non-overlapping, exactly like Python `str.replace`.
The fuel is the length of the scanned list, so recursion is structural. -/
def replaceFuel (pat rep : List Char) : Nat → List Char → List Char
  | _, [] => []
  | 0, cs => cs
  | fuel + 1, c :: cs =>
    if !pat.isEmpty && pat.isPrefixOf (c :: cs) then
      rep ++ replaceFuel pat rep fuel (List.drop (pat.length - 1) cs)
    else
      c :: replaceFuel pat rep fuel cs

/-- Python `s.replace(pat, rep)` (for the nonempty patterns used here). -/
def strReplace (s pat rep : String) : String :=
  String.mk (replaceFuel pat.data rep.data s.data.length s.data)

/-! ### Configuration tables (`rag_system.py`, lines 25-48) -/

/-- `TOP_K = 10` -/
def TOP_K : Nat := 10

/-- `MIN_SIMILARITY = 0.3` -/
def MIN_SIMILARITY : ℚ := 3 / 10

/-- `SEVERITY_BOOST = {"emergency": 1.5, "urgent": 1.2, "routine": 1.0}`
together with the `.get(severity, 1.0)` default used at line 175. -/
def SEVERITY_BOOST (severity : String) : ℚ :=
  if severity = "emergency" then 3 / 2
  else if severity = "urgent" then 6 / 5
  else if severity = "routine" then 1
  else 1

/-- `MEDICAL_SYNONYMS` (lines 30-41), in insertion order. -/
def MEDICAL_SYNONYMS : List (String × List String) :=
  [("vomit", ["vomiting", "throwing up", "emesis"]),
   ("diarrhea", ["loose stool", "loose motion", "watery stool"]),
   ("pee", ["urinate", "urine", "urination"]),
   ("poop", ["stool", "feces", "defecate"]),
   ("cough", ["coughing", "hacking"]),
   ("scratch", ["scratching", "itching", "itchy"]),
   ("limp", ["limping", "lame", "not walking"]),
   ("breath", ["breathing", "respiratory", "panting"]),
   ("eat", ["eating", "appetite", "food"]),
   ("blood", ["bleeding", "bloody"])]

/-- `EMERGENCY_KEYWORDS` (lines 44-48). -/
def EMERGENCY_KEYWORDS : List String :=
  ["bleeding", "blood", "seizure", "unconscious", "not breathing",
   "collapsed", "severe pain", "bloat", "poisoning", "trauma",
   "snake bite", "broken bone", "can\x27t stand", "blue gums"]

/-! ### Query Expander (`expand_query`, lines 126-137) -/

/-- The accumulation loop of `expand_query`: for each synonym-table entry
whose term occurs in the lowered query, append one variant per admissible
synonym (first two synonyms, not already present in the lowered query). -/
def expandLoop (ql : String) : List String → List (String × List String) → List String
  | acc, [] => acc
  | acc, (term, synonyms) :: rest =>
    let acc2 :=
      if strContains ql term then
        acc ++ ((synonyms.take 2).filter (fun syn => !strContains ql syn)).map
          (fun syn => strReplace ql term syn)
      else acc
    expandLoop ql acc2 rest

/-- `expand_query` (lines 126-137): build the variant list starting from the
original query, cap at 3 variants, join with spaces. -/
def expand_query (q : String) : String :=
  let ql := strLower q
  String.intercalate " " ((expandLoop ql [q] MEDICAL_SYNONYMS).take 3)

/-- The variant list as the spec describes it (query expander contract in
§4.1 of the spec): one flat pass over the synonym table collecting, for each
term occurring in the lowered query, the admissible replaced variants. -/
def expandVariantsSpec (q : String) : List String :=
  let ql := strLower q
  MEDICAL_SYNONYMS.flatMap (fun p =>
    if strContains ql p.1 then
      ((p.2.take 2).filter (fun syn => !strContains ql syn)).map
        (fun syn => strReplace ql p.1 syn)
    else [])

/-- The whole expander as the spec describes it: original query followed by
the collected variants, truncated to 3, space-joined. -/
def expandQuerySpec (q : String) : String :=
  String.intercalate " " ((q :: expandVariantsSpec q).take 3)

/-! ### Emergency Detector (`detect_emergency`, lines 139-142) -/

/-- `detect_emergency`: some emergency keyword occurs in the lowered query. -/
def detect_emergency (q : String) : Bool :=
  EMERGENCY_KEYWORDS.any (fun keyword => strContains (strLower q) keyword)

/-! ### Lemmas about the string primitives and the expander -/

theorem mem_of_isPrefixOf {needle hay : List Char} (h : needle.isPrefixOf hay = true) :
    ∀ c ∈ needle, c ∈ hay := by
  induction needle generalizing hay with
  | nil => intro c hc; cases hc
  | cons a as ih =>
    cases hay with
    | nil => simp [List.isPrefixOf] at h
    | cons b bs =>
      simp only [List.isPrefixOf, Bool.and_eq_true, beq_iff_eq] at h
      intro c hc
      rcases List.mem_cons.mp hc with rfl | hc2
      · exact h.1 ▸ List.mem_cons_self _ _
      · exact List.mem_cons_of_mem _ (ih h.2 c hc2)

theorem mem_of_containsSub {hay needle : List Char} (h : containsSub hay needle = true) :
    ∀ c ∈ needle, c ∈ hay := by
  induction hay with
  | nil =>
    simp only [containsSub, List.isEmpty_iff] at h
    subst h; intro c hc; cases hc
  | cons b bs ih =>
    simp only [containsSub, Bool.or_eq_true] at h
    rcases h with h | h
    · exact mem_of_isPrefixOf h
    · intro c hc; exact List.mem_cons_of_mem _ (ih h c hc)

theorem toLower_of_isWhitespace {c : Char} (h : c.isWhitespace = true) :
    c.toLower = c := by
  simp only [Char.isWhitespace, Bool.or_eq_true, decide_eq_true_eq] at h
  rcases h with ((h | h) | h) | h <;> subst h <;> decide

/-- Lowering preserves whitespace-only strings, character by character. -/
theorem strLower_whitespace {q : String} (h : ∀ c ∈ q.data, c.isWhitespace = true) :
    ∀ c ∈ (strLower q).data, c.isWhitespace = true := by
  intro c hc
  simp only [strLower, List.mem_map] at hc
  obtain ⟨c0, hc0, rfl⟩ := hc
  rw [toLower_of_isWhitespace (h c0 hc0)]
  exact h c0 hc0

/-- If no table term occurs in the lowered query, the loop adds nothing. -/
theorem expandLoop_of_no_match {ql : String} {table : List (String × List String)}
    (h : ∀ p ∈ table, strContains ql p.1 = false) :
    ∀ acc, expandLoop ql acc table = acc := by
  induction table with
  | nil => intro acc; rfl
  | cons p rest ih =>
    intro acc
    have hp : strContains ql p.1 = false := h p (List.mem_cons_self _ _)
    obtain ⟨term, synonyms⟩ := p
    simp only [expandLoop, hp, Bool.false_eq_true, if_false]
    exact ih (fun p hp2 => h p (List.mem_cons_of_mem _ hp2)) acc

/-- The loop is the flat spec-style pass: it appends, in table order, the
variants contributed by each matching term. -/
theorem expandLoop_eq_bind (ql : String) (table : List (String × List String)) :
    ∀ acc, expandLoop ql acc table =
      acc ++ table.flatMap (fun p =>
        if strContains ql p.1 then
          ((p.2.take 2).filter (fun syn => !strContains ql syn)).map
            (fun syn => strReplace ql p.1 syn)
        else []) := by
  induction table with
  | nil => intro acc; simp [expandLoop]
  | cons p rest ih =>
    intro acc
    obtain ⟨term, synonyms⟩ := p
    simp only [expandLoop, List.flatMap_cons]
    by_cases h : strContains ql term = true
    · simp only [h, if_true, ih, List.append_assoc]
    · simp only [Bool.not_eq_true] at h
      simp [h, ih]

/-! ### Data model of the retrieval state -/

/-- A metadata record of a corpus entry (the per-entry dict loaded from the
dataset files; only the keys the code reads are modelled, each optional
because the dicts are duck-typed). -/
structure Meta where
  symptom : Option String := none
  description : Option String := none
  severity : Option String := none
  species : Option String := none
  home_care_india : Option String := none
  vet_triggers : Option String := none
  service_recommendation : Option String := none
  indian_climate_factors : Option String := none
  category : Option String := none
deriving DecidableEq

instance : Inhabited Meta := ⟨{}⟩

/-- One element of the list returned by `search` (lines 177-181). -/
structure SearchResult where
  score : ℚ
  metadata : Meta
  text : String
deriving DecidableEq

/-- The mutable state of the `SnoutiqRAG` object: `documents`, `metadata`,
`index` (modelled as the list of stored embedding vectors) and `loaded`
(lines 65-68).  The embedding model and the LLM handle carry no state that
the claims touch; they are modelled as call parameters instead. -/
structure SnoutiqRAG where
  documents : List String := []
  metadata : List Meta := []
  index : Option (List (List ℚ)) := none
  loaded : Bool := false
deriving DecidableEq

/-! ### Ranker (`search`, lines 144-185) -/

/-- The species filter test of lines 169-171: Python
`if species and meta.get(\x27species\x27, \x27\x27).lower() != species.lower()`
skips the candidate; a `none` (or falsy, i.e. empty) filter never skips. -/
def speciesMismatch (species : Option String) (meta : Meta) : Bool :=
  match species with
  | none => false
  | some sp =>
    if sp = "" then false
    else if strLower (meta.species.getD "") = strLower sp then false
    else true

/-- The per-candidate body of the result loop (lines 163-181): drop scores
below `MIN_SIMILARITY`, apply the species filter, multiply by the severity
boost.  A candidate is a `(score, position)` pair as returned by the index.
FAISS only returns valid positions, so out-of-range positions (which would
raise in Python) are given default contents via `getD`. -/
def candidateOf (rag : SnoutiqRAG) (species : Option String) (cand : ℚ × Nat) :
    Option SearchResult :=
  if cand.1 < MIN_SIMILARITY then none
  else
    let meta := rag.metadata.getD cand.2 default
    if speciesMismatch species meta then none
    else some
      { score := cand.1 * SEVERITY_BOOST (meta.severity.getD "routine")
        metadata := meta
        text := rag.documents.getD cand.2 "" }

/-- Descending comparison on boosted scores used by the final sort
(line 184, `sort(key=lambda x: x[\x27score\x27], reverse=True)`); Python
sorts are stable, as is `List.mergeSort`. -/
def scoreGe (a b : SearchResult) : Bool := decide (b.score ≤ a.score)

/-- `search` (lines 144-185).  `indexSearch` is the external boundary made
of the embedding model plus the FAISS index of a loaded system: given the
expanded query text and a requested count it returns `(score, position)`
pairs.  The code asks for `min(top_k * 2, len(documents))` of them, filters,
boosts, sorts descending by boosted score and truncates to `top_k`. -/
def search (rag : SnoutiqRAG) (indexSearch : String → Nat → List (ℚ × Nat))
    (query : String) (species : Option String) (top_k : Nat := TOP_K) :
    List SearchResult :=
  if rag.loaded then
    let expanded := expand_query query
    let cands := indexSearch expanded (min (top_k * 2) rag.documents.length)
    let results := cands.filterMap (candidateOf rag species)
    (results.mergeSort scoreGe).take top_k
  else []

/-! ### Lemmas about `search` -/

theorem candidateOf_eq_some {rag : SnoutiqRAG} {species : Option String}
    {cand : ℚ × Nat} {r : SearchResult} :
    candidateOf rag species cand = some r ↔
      ¬ cand.1 < MIN_SIMILARITY ∧
      speciesMismatch species (rag.metadata.getD cand.2 default) = false ∧
      r = { score := cand.1 *
              SEVERITY_BOOST ((rag.metadata.getD cand.2 default).severity.getD "routine")
            metadata := rag.metadata.getD cand.2 default
            text := rag.documents.getD cand.2 "" } := by
  simp only [candidateOf, List.getD_eq_getElem?_getD]
  by_cases h1 : cand.1 < MIN_SIMILARITY
  · simp [h1]
  · by_cases h2 : speciesMismatch species (rag.metadata[cand.2]?.getD default) = true
    · simp [h1, h2]
    · simp only [Bool.not_eq_true] at h2
      simp only [h1, h2, if_false, Bool.false_eq_true, not_false_eq_true, true_and,
        Option.some.injEq]
      exact eq_comm

theorem search_not_loaded {rag : SnoutiqRAG} {f : String → Nat → List (ℚ × Nat)}
    {query : String} {species : Option String} {top_k : Nat}
    (h : rag.loaded = false) : search rag f query species top_k = [] := by
  simp [search, h]

theorem search_eq_of_loaded {rag : SnoutiqRAG} {f : String → Nat → List (ℚ × Nat)}
    {query : String} {species : Option String} {top_k : Nat}
    (h : rag.loaded = true) :
    search rag f query species top_k =
      (((f (expand_query query) (min (top_k * 2) rag.documents.length)).filterMap
        (candidateOf rag species)).mergeSort scoreGe).take top_k := by
  simp [search, h]

theorem exists_cand_of_mem_search {rag : SnoutiqRAG}
    {f : String → Nat → List (ℚ × Nat)} {query : String} {species : Option String}
    {top_k : Nat} {r : SearchResult} (hr : r ∈ search rag f query species top_k) :
    rag.loaded = true ∧
    ∃ cand ∈ f (expand_query query) (min (top_k * 2) rag.documents.length),
      candidateOf rag species cand = some r := by
  by_cases hload : rag.loaded
  · refine ⟨hload, ?_⟩
    rw [search_eq_of_loaded hload] at hr
    have h1 := List.take_subset _ _ hr
    have h2 := (List.mergeSort_perm _ scoreGe).mem_iff.mp h1
    obtain ⟨cand, hc, hco⟩ := List.mem_filterMap.mp h2
    exact ⟨cand, hc, hco⟩
  · rw [search_not_loaded (Bool.not_eq_true _ ▸ hload)] at hr
    cases hr

theorem mergeSort_scoreGe_pairwise (l : List SearchResult) :
    (l.mergeSort scoreGe).Pairwise (fun a b => b.score ≤ a.score) := by
  have hsorted := @List.sorted_mergeSort SearchResult scoreGe
    (fun a b c hab hbc => by
      simp only [scoreGe, decide_eq_true_eq] at hab hbc ⊢
      exact le_trans hbc hab)
    (fun a b => by
      simp only [scoreGe, Bool.or_eq_true, decide_eq_true_eq]
      exact le_total b.score a.score)
    l
  exact hsorted.imp (fun h => by simpa [scoreGe] using h)

theorem search_sorted (rag : SnoutiqRAG) (f : String → Nat → List (ℚ × Nat))
    (query : String) (species : Option String) (top_k : Nat) :
    (search rag f query species top_k).Pairwise (fun a b => b.score ≤ a.score) := by
  by_cases hload : rag.loaded
  · rw [search_eq_of_loaded hload]
    exact (mergeSort_scoreGe_pairwise _).sublist (List.take_sublist _ _)
  · rw [search_not_loaded (Bool.not_eq_true _ ▸ hload)]
    exact List.Pairwise.nil

/-- Every metadata record attached to a search result is either a stored
corpus record or the all-`none` default (only reachable for an out-of-range
index position). -/
theorem metadata_of_mem_search {rag : SnoutiqRAG}
    {f : String → Nat → List (ℚ × Nat)} {query : String} {species : Option String}
    {top_k : Nat} {r : SearchResult} (hr : r ∈ search rag f query species top_k) :
    r.metadata = default ∨ r.metadata ∈ rag.metadata := by
  obtain ⟨-, cand, -, hco⟩ := exists_cand_of_mem_search hr
  obtain ⟨-, -, rfl⟩ := candidateOf_eq_some.mp hco
  by_cases hi : cand.2 < rag.metadata.length
  · right
    rw [List.getD_eq_getElem rag.metadata default hi]
    exact List.getElem_mem hi
  · left
    exact List.getD_eq_default _ _ (Nat.le_of_not_lt hi)

/-! ### Response data model -/

/-- `pet_details` (a dict of strings; every read uses `.get` with a default,
lines 212-219 and 244, so each field is optional). -/
structure PetDetails where
  name : Option String := none
  species : Option String := none
  breed : Option String := none
  age : Option String := none
  weight : Option String := none
  sex : Option String := none
  vaccination_summary : Option String := none
  medical_history : Option String := none
deriving DecidableEq

/-- The nested `query_metadata` dict attached at lines 287-292. -/
structure QueryMetadata where
  timestamp : String
  num_matches : Nat
  is_emergency : Bool
  top_match_score : ℚ
deriving DecidableEq, Repr

/-- JSON-ish values appearing in a response dict: strings, lists of strings,
numbers, booleans, and the nested `query_metadata` record. -/
inductive JVal where
  | str : String → JVal
  | strList : List String → JVal
  | num : ℚ → JVal
  | bool : Bool → JVal
  | meta : QueryMetadata → JVal
deriving DecidableEq, Repr

/-- A response dict: an insertion-ordered association list. -/
abbrev ResponseObj := List (String × JVal)

/-- Python dict assignment `d[k] = v`: replace the binding in place if the
key exists, append otherwise. -/
def setKey : ResponseObj → String → JVal → ResponseObj
  | [], k, v => [(k, v)]
  | (k0, v0) :: rest, k, v =>
    if k0 = k then (k, v) :: rest else (k0, v0) :: setKey rest k v

/-- Python dict read `d.get(k)` / `k in d`. -/
def getKey : ResponseObj → String → Option JVal
  | [], _ => none
  | (k0, v) :: rest, k => if k0 = k then some v else getKey rest k

/-- Outcome of the generative-boundary call `self.llm.generate_content`
(line 274): an exception, or a response whose `.text` is arbitrary. -/
inductive LLMResult where
  | exc : LLMResult
  | ok : String → LLMResult

/-- `re.search(r\x27\x7b.*\x7d\x27, text, re.DOTALL)` (line 278): the greedy
DOTALL match runs from the first opening brace to the last closing brace,
provided the latter comes strictly after the former; otherwise no match. -/
def extractBraces (text : String) : Option String :=
  let cs := text.data
  match cs.findIdx? (fun c => c = '\x7b'), cs.reverse.findIdx? (fun c => c = '\x7d') with
  | some i, some rj =>
    let j := cs.length - 1 - rj
    if i < j then some (String.mk ((cs.drop i).take (j - i + 1))) else none
  | _, _ => none

/-! ### Response Synthesizer (`_create_fallback_response`, lines 300-347) -/

/-- `_create_fallback_response`: the deterministic template used whenever
the generative boundary fails.  With no matches: the fixed conservative
no-match template (lines 307-327).  With matches: fields derived from the
top match metadata with `confidence = "medium"` (lines 329-347). -/
def _create_fallback_response (pet_details : PetDetails)
    (matched_entries : List SearchResult) (is_emergency : Bool) : ResponseObj :=
  match matched_entries with
  | [] =>
    [("pet_name", .str (pet_details.name.getD "Your pet")),
     ("summary", .str "We couldn\x27t find specific information for these symptoms."),
     ("what_we_found", .str "The symptoms you described don\x27t closely match our database. This doesn\x27t mean it\x27s not serious."),
     ("immediate_steps", .strList
       ["Monitor your pet closely",
        "Note any changes in behavior or symptoms",
        "Keep your pet comfortable"]),
     ("home_care_tips", .strList
       ["Ensure fresh water is available",
        "Keep in a cool, comfortable place",
        "Don\x27t force food if not eating"]),
     ("when_to_see_vet", .str "Given the uncertainty, we recommend consulting a veterinarian soon."),
     ("urgency_level", .str (if is_emergency then "urgent" else "routine")),
     ("service_recommendation", .str (if is_emergency then "in_clinic" else "video_consult")),
     ("confidence", .str "low"),
     ("additional_notes", .str "Without clear symptom matches, professional veterinary assessment is recommended.")]
  | first :: _ =>
    let top := first.metadata
    [("pet_name", .str (pet_details.name.getD "Your pet")),
     ("summary", .str ("Based on symptoms, this appears to be related to " ++ top.symptom.getD "the condition")),
     ("what_we_found", .str (top.description.getD "")),
     ("immediate_steps", .strList
       ["Follow home care guidelines below",
        "Monitor symptoms closely",
        "Note any worsening"]),
     ("home_care_tips", .strList [top.home_care_india.getD "Keep comfortable and monitor"]),
     ("when_to_see_vet", .str (top.vet_triggers.getD "If symptoms persist or worsen")),
     ("urgency_level", .str (top.severity.getD "routine")),
     ("service_recommendation", .str (top.service_recommendation.getD "video_consult")),
     ("confidence", .str "medium"),
     ("additional_notes", .str (top.indian_climate_factors.getD ""))]

/-- The `query_metadata` record built at lines 287-292:
`top_match_score = matched_entries[0][\x27score\x27] if matched_entries else 0`. -/
def mkQueryMetadata (now : String) (matched_entries : List SearchResult)
    (is_emergency : Bool) : QueryMetadata :=
  { timestamp := now
    num_matches := matched_entries.length
    is_emergency := is_emergency
    top_match_score := match matched_entries with | [] => 0 | m :: _ => m.score }

/-- `generate_response` (lines 187-298).  The prompt built at lines 195-270
is pure string formatting fed to the opaque generative boundary, so the
boundary outcome is taken directly as the parameter `llm`; `jsonLoads` is
the `json.loads` boundary (`none` models a raised `JSONDecodeError`).

Control flow of lines 272-298: on a boundary exception, or when `json.loads`
raises on the extracted brace substring, the `except` handler returns the
fallback as-is; when no brace substring exists, the fallback is built inside
the `try` and `query_metadata` is attached; when parsing succeeds the parsed
dict gets `query_metadata` attached. -/
def generate_response (pet_details : PetDetails) (query : String)
    (matched_entries : List SearchResult) (llm : LLMResult)
    (jsonLoads : String → Option ResponseObj) (now : String) : ResponseObj :=
  let is_emergency := detect_emergency query
  let qmeta := mkQueryMetadata now matched_entries is_emergency
  match llm with
  | .exc => _create_fallback_response pet_details matched_entries is_emergency
  | .ok text =>
    match extractBraces text with
    | some jsonText =>
      match jsonLoads jsonText with
      | some result => setKey result "query_metadata" (.meta qmeta)
      | none => _create_fallback_response pet_details matched_entries is_emergency
    | none =>
      setKey (_create_fallback_response pet_details matched_entries is_emergency)
        "query_metadata" (.meta qmeta)

/-! ### Top-level pipeline (`process_query`, lines 349-375) -/

/-- The species normalisation of lines 356-363: substring match for "dog"
and "cat" on the lowered species field, else no filter. -/
def speciesFilter (pet_details : PetDetails) : Option String :=
  let species0 := strLower (pet_details.species.getD "")
  if strContains species0 "dog" then some "dogs"
  else if strContains species0 "cat" then some "cats"
  else none

/-- `process_query`: normalise the species into a filter value by substring
match, search, and synthesise the response. -/
def process_query (rag : SnoutiqRAG) (indexSearch : String → Nat → List (ℚ × Nat))
    (pet_details : PetDetails) (query : String) (llm : LLMResult)
    (jsonLoads : String → Option ResponseObj) (now : String) : ResponseObj :=
  let matched := search rag indexSearch query (speciesFilter pet_details) TOP_K
  generate_response pet_details query matched llm jsonLoads now

/-! ### Loader (`load_datasets`, lines 72-124) -/

/-- One element of `dataset_files`, together with the outcome of the
ingestion boundary for it: `parsed = none` models the `except` branch of
lines 98-100 (unreadable/unparseable file, skipped), `parsed = some entries`
the entry list extracted at line 85. -/
structure DatasetSource where
  filename : String
  parsed : Option (List Meta)

/-- The category tag computed at line 84 from the filename. -/
def categoryOf (filename : String) : String :=
  ((strReplace (strReplace filename "master_" "") "_dataset.json" "").splitOn "/").getLastD ""

/-- Line 89: the embedded text of an entry. -/
def entryText (e : Meta) : String := e.symptom.getD "" ++ ". " ++ e.description.getD ""

/-- `load_datasets`: accumulate (text, metadata-with-category) pairs over
the readable sources; with zero entries report failure and leave the state
alone; otherwise embed every text (the `embedOne` boundary is the
per-text embedding model), build the index, store documents and metadata and
set `loaded`.  `loadStep` is the body of the per-file loop (lines 79-100). -/
def loadStep (acc : List (String × Meta)) (file : DatasetSource) :
    List (String × Meta) :=
  match file.parsed with
  | none => acc
  | some entries =>
    let category := categoryOf file.filename
    acc ++ entries.map (fun e => (entryText e, { e with category := some category }))

def load_datasets (rag : SnoutiqRAG) (embedOne : String → List ℚ)
    (dataset_files : List DatasetSource) : Bool × SnoutiqRAG :=
  let pairs := dataset_files.foldl loadStep []
  if pairs.isEmpty then (false, rag)
  else
    let all_texts := pairs.map Prod.fst
    let all_metadata := pairs.map Prod.snd
    let embeddings := all_texts.map embedOne
    (true,
      { documents := all_texts
        metadata := all_metadata
        index := some embeddings
        loaded := true })

/-! ### Lemmas about response dicts -/

theorem getKey_setKey_self (o : ResponseObj) (k : String) (v : JVal) :
    getKey (setKey o k v) k = some v := by
  induction o with
  | nil => simp [setKey, getKey]
  | cons p rest ih =>
    obtain ⟨k0, v0⟩ := p
    by_cases h : k0 = k
    · subst h; simp [setKey, getKey]
    · simp [setKey, getKey, h, ih]

theorem getKey_setKey_of_ne {kset kget : String} (h : kget ≠ kset)
    (o : ResponseObj) (v : JVal) :
    getKey (setKey o kset v) kget = getKey o kget := by
  induction o with
  | nil => simp [setKey, getKey, Ne.symm h]
  | cons p rest ih =>
    obtain ⟨k0, v0⟩ := p
    by_cases h0 : k0 = kset
    · subst h0
      simp [setKey, getKey, Ne.symm h]
    · by_cases h1 : k0 = kget
      · subst h1; simp [setKey, getKey, h0]
      · simp [setKey, getKey, h0, h1, ih]

/-- Neither fallback shape carries a `query_metadata` key. -/
theorem fallback_no_query_metadata (pet_details : PetDetails)
    (matched_entries : List SearchResult) (is_emergency : Bool) :
    getKey (_create_fallback_response pet_details matched_entries is_emergency)
      "query_metadata" = none := by
  cases matched_entries <;> rfl

/-- The keys every `VetResponse` is supposed to carry (spec §3). -/
def requiredKeys : List String :=
  ["pet_name", "summary", "what_we_found", "immediate_steps", "home_care_tips",
   "when_to_see_vet", "urgency_level", "service_recommendation", "confidence",
   "additional_notes"]

/-- Both fallback shapes populate every required key. -/
theorem fallback_has_required (pet_details : PetDetails)
    (matched_entries : List SearchResult) (is_emergency : Bool) :
    ∀ k ∈ requiredKeys,
      (getKey (_create_fallback_response pet_details matched_entries is_emergency)
        k).isSome = true := by
  intro k hk
  cases matched_entries with
  | nil => fin_cases hk <;> rfl
  | cons top rest => fin_cases hk <;> rfl

/-- The urgency level each fallback shape reports. -/
theorem fallback_urgency (pet_details : PetDetails)
    (matched_entries : List SearchResult) (is_emergency : Bool) :
    getKey (_create_fallback_response pet_details matched_entries is_emergency)
      "urgency_level" =
      some (.str (match matched_entries with
        | [] => if is_emergency then "urgent" else "routine"
        | top :: _ => top.metadata.severity.getD "routine")) := by
  cases matched_entries <;> rfl

/-- The three failure modes of the generative boundary visible to
`generate_response`: a raised exception, output with no brace-delimited
substring, or an extracted substring `json.loads` rejects. -/
def llmFailed (llm : LLMResult) (jsonLoads : String → Option ResponseObj) : Prop :=
  llm = .exc ∨
  (∃ text, llm = .ok text ∧ extractBraces text = none) ∨
  (∃ text jsonText, llm = .ok text ∧ extractBraces text = some jsonText ∧
    jsonLoads jsonText = none)

/-- Whenever the generative boundary fails, `generate_response` returns the
deterministic fallback, with `query_metadata` attached exactly in the
no-brace-substring case. -/
theorem generate_response_of_failed (pet_details : PetDetails) (query : String)
    (matched_entries : List SearchResult) (llm : LLMResult)
    (jsonLoads : String → Option ResponseObj) (now : String)
    (hfail : llmFailed llm jsonLoads) :
    generate_response pet_details query matched_entries llm jsonLoads now =
      _create_fallback_response pet_details matched_entries (detect_emergency query) ∨
    generate_response pet_details query matched_entries llm jsonLoads now =
      setKey (_create_fallback_response pet_details matched_entries (detect_emergency query))
        "query_metadata"
        (.meta (mkQueryMetadata now matched_entries (detect_emergency query))) := by
  rcases hfail with rfl | ⟨text, rfl, hx⟩ | ⟨text, jsonText, rfl, hx, hj⟩
  · left; rfl
  · right; simp only [generate_response, hx]
  · left; simp only [generate_response, hx, hj]

/-- `process_query` is `generate_response` applied to the search results for
the normalised species filter. -/
theorem process_query_eq (rag : SnoutiqRAG) (f : String → Nat → List (ℚ × Nat))
    (pet_details : PetDetails) (query : String) (llm : LLMResult)
    (jsonLoads : String → Option ResponseObj) (now : String) :
    process_query rag f pet_details query llm jsonLoads now =
      generate_response pet_details query
        (search rag f query (speciesFilter pet_details) TOP_K) llm jsonLoads now := rfl

/-- The boosted result that `candidateOf` builds for a surviving candidate. -/
def boostedResult (rag : SnoutiqRAG) (s : ℚ) (i : Nat) : SearchResult :=
  { score := s * SEVERITY_BOOST ((rag.metadata.getD i default).severity.getD "routine")
    metadata := rag.metadata.getD i default
    text := rag.documents.getD i "" }

/-! ### Concrete fixtures for witnesses and counterexamples -/

/-- The `json.loads` boundary in runs where it is never reached or always
fails (its argument is never a valid JSON document). -/
def jsonLoadsNone : String → Option ResponseObj := fun _ => none

/-- A `json.loads` boundary agreeing with Python on the two concrete JSON
documents used below and failing elsewhere. -/
def jsonLoadsDemo : String → Option ResponseObj := fun s =>
  if s = "\x7b\x7d" then some []
  else if s = "\x7b\"confidence\": \"high\"\x7d" then
    some [("confidence", JVal.str "high")]
  else none

/-- Pet details with every optional field absent. -/
def pet0 : PetDetails := {}

/-- Pet details of a dog named Bruno. -/
def petDog : PetDetails := { name := some "Bruno", species := some "Dog" }

/-- The freshly constructed, unloaded state of `__init__` (lines 65-68). -/
def rag0 : SnoutiqRAG := {}

/-- The index boundary of an empty system: no candidates. -/
def idxSearch0 : String → Nat → List (ℚ × Nat) := fun _ _ => []

/-- A loaded corpus entry about a vomiting dog. -/
def mDog : Meta :=
  { symptom := some "vomiting"
    description := some "dog vomiting repeatedly"
    severity := some "urgent"
    species := some "Dogs"
    home_care_india := some "offer small sips of water"
    vet_triggers := some "vomiting beyond 24 hours"
    service_recommendation := some "in_clinic"
    indian_climate_factors := some "risk of dehydration in heat"
    category := some "dog" }

/-- A loaded one-entry state. -/
def rag1 : SnoutiqRAG :=
  { documents := ["vomiting. dog vomiting repeatedly"]
    metadata := [mDog]
    index := some [[1]]
    loaded := true }

/-- An index boundary returning the single entry with similarity 1/2. -/
def idxSearch1 : String → Nat → List (ℚ × Nat) := fun _ _ => [(1 / 2, 0)]

/-- The search result `rag1` produces for that candidate: raw score 1/2
boosted by the "urgent" factor 6/5. -/
def r1val : SearchResult :=
  { score := 3 / 5, metadata := mDog, text := "vomiting. dog vomiting repeatedly" }

theorem candidateOf_rag1_eval :
    candidateOf rag1 (some "dogs") ((1 : ℚ) / 2, 0) = some r1val := by
  refine candidateOf_eq_some.mpr ⟨?_, rfl, ?_⟩
  · rw [not_lt, MIN_SIMILARITY]; norm_num
  · have hb : SEVERITY_BOOST "urgent" = 6 / 5 := rfl
    show r1val =
      ({ score := 1 / 2 * SEVERITY_BOOST "urgent"
         metadata := mDog
         text := "vomiting. dog vomiting repeatedly" } : SearchResult)
    rw [hb]
    norm_num [r1val, SearchResult.mk.injEq]

theorem search_rag1_eval :
    search rag1 idxSearch1 "my dog is vomiting" (some "dogs") TOP_K = [r1val] := by
  rw [search_eq_of_loaded rfl]
  have hlist : idxSearch1 (expand_query "my dog is vomiting")
      (min (TOP_K * 2) rag1.documents.length) = [((1 : ℚ) / 2, 0)] := rfl
  rw [hlist]
  simp only [List.filterMap_cons, candidateOf_rag1_eval, List.filterMap_nil]
  rw [List.mergeSort_singleton]
  rfl

/-! ### Claim theorems -/

/-- **C4** (query expander contract): `expand_query` lower-cases the query
and, for each synonym-table term occurring as a substring of the lowered
query, produces one variant per synonym among the first two synonyms of that
term not already present in the query, with the term textually replaced; the
output is the original query joined with the collected variants by spaces,
truncated to at most 3 variants (hence at most 2 added ones); a query made
only of whitespace (in particular the empty query) is returned unchanged. -/
theorem expand_query_contract (q : String) :
    expand_query q = expandQuerySpec q ∧
    expand_query q = String.intercalate " " ((q :: expandVariantsSpec q).take 3) ∧
    ((q :: expandVariantsSpec q).take 3).length ≤ 3 ∧
    ((q :: expandVariantsSpec q).take 3).head? = some q ∧
    ((∀ c ∈ q.data, c.isWhitespace = true) → expand_query q = q) := by
  have h1 : expand_query q = expandQuerySpec q := by
    simp only [expand_query, expandQuerySpec, expandVariantsSpec]
    rw [expandLoop_eq_bind]
    rfl
  refine ⟨h1, h1, List.length_take_le _ _, rfl, ?_⟩
  intro hw
  have hql := strLower_whitespace hw
  have hnomatch : ∀ p ∈ MEDICAL_SYNONYMS, strContains (strLower q) p.1 = false := by
    intro p hp
    by_contra hc
    simp only [Bool.not_eq_false] at hc
    have hnw : ∃ c ∈ p.1.data, ¬ c.isWhitespace = true := by
      fin_cases hp <;> decide
    obtain ⟨c, hcmem, hcnw⟩ := hnw
    exact hcnw (hql c (mem_of_containsSub hc c hcmem))
  simp only [expand_query]
  rw [expandLoop_of_no_match hnomatch]
  rfl

/-- Witness for C4 at a concrete whitespace input. -/
theorem expand_query_contract_witness :
    (∀ c ∈ ("  ").data, c.isWhitespace = true) ∧ expand_query "  " = "  " :=
  ⟨by decide, (expand_query_contract "  ").2.2.2.2 (by decide)⟩

/-- **C1** counterexample: when the generative boundary raises an exception,
`generate_response` returns the fallback immediately from the `except`
handler (line 298) without attaching `query_metadata`, so the FALLBACK
terminal path does not always attach it. -/
theorem generate_response_exception_drops_metadata :
    getKey (generate_response pet0 "my dog is sick" [] .exc jsonLoadsNone
      "2026-01-01T00:00:00") "query_metadata" = none := rfl

/-- **C1** (amended): `generate_response` attaches
`query_metadata = {timestamp, num_matches = |matches|, is_emergency,
top_match_score = score of the first match or 0}` on the SUCCESS path and on
the parse-failure fallback taken when no brace-delimited substring exists;
it does NOT attach it when the generative call raises, nor when the
extracted substring fails JSON parsing (both resolve through the `except`
handler). -/
theorem query_metadata_attachment (pet_details : PetDetails) (query : String)
    (matched_entries : List SearchResult) (jsonLoads : String → Option ResponseObj)
    (now text jsonText : String) (result : ResponseObj) :
    getKey (generate_response pet_details query matched_entries .exc jsonLoads now)
      "query_metadata" = none ∧
    (extractBraces text = none →
      generate_response pet_details query matched_entries (.ok text) jsonLoads now =
        setKey (_create_fallback_response pet_details matched_entries
            (detect_emergency query))
          "query_metadata"
          (.meta (mkQueryMetadata now matched_entries (detect_emergency query)))) ∧
    (extractBraces text = some jsonText → jsonLoads jsonText = none →
      getKey (generate_response pet_details query matched_entries (.ok text)
        jsonLoads now) "query_metadata" = none) ∧
    (extractBraces text = some jsonText → jsonLoads jsonText = some result →
      generate_response pet_details query matched_entries (.ok text) jsonLoads now =
        setKey result "query_metadata"
          (.meta (mkQueryMetadata now matched_entries (detect_emergency query))) ∧
      getKey (generate_response pet_details query matched_entries (.ok text)
        jsonLoads now) "query_metadata" =
        some (.meta (mkQueryMetadata now matched_entries (detect_emergency query)))) := by
  refine ⟨?_, ?_, ?_, ?_⟩
  · exact fallback_no_query_metadata pet_details matched_entries (detect_emergency query)
  · intro hx
    simp only [generate_response, hx]
  · intro hx hj
    simp only [generate_response, hx, hj]
    exact fallback_no_query_metadata pet_details matched_entries (detect_emergency query)
  · intro hx hj
    have heq : generate_response pet_details query matched_entries (.ok text)
        jsonLoads now = setKey result "query_metadata"
          (.meta (mkQueryMetadata now matched_entries (detect_emergency query))) := by
      simp only [generate_response, hx, hj]
    exact ⟨heq, heq ▸ getKey_setKey_self _ _ _⟩

/-- Witness for the amended C1 on the no-JSON branch at concrete inputs. -/
theorem query_metadata_attachment_witness :
    extractBraces "plain text with no json" = none ∧
    generate_response pet0 "my cat sneezes" [] (.ok "plain text with no json")
        jsonLoadsNone "t0" =
      setKey (_create_fallback_response pet0 [] (detect_emergency "my cat sneezes"))
        "query_metadata"
        (.meta (mkQueryMetadata "t0" [] (detect_emergency "my cat sneezes"))) :=
  ⟨rfl, (query_metadata_attachment pet0 "my cat sneezes" [] jsonLoadsNone "t0"
    "plain text with no json" "" []).2.1 rfl⟩

/-- **C2** counterexample: with a loaded one-entry corpus and the generative
boundary returning the valid JSON text `\x7b\x7d` (which `json.loads` parses
to the empty object), `process_query` returns that parsed object with only
`query_metadata` added: `urgency_level` (like every other required key) is
absent, so the parsed output is NOT guaranteed to be a fully populated
VetResponse. -/
theorem process_query_parsed_json_missing_keys :
    getKey (process_query rag1 idxSearch1 petDog "my dog is vomiting"
      (.ok "\x7b\x7d") jsonLoadsDemo "t0") "urgency_level" = none := by
  rw [process_query_eq]
  have hsp : speciesFilter petDog = some "dogs" := rfl
  rw [hsp, search_rag1_eval]
  rfl

/-- **C2** (amended): `process_query` is total (the embedding is a total
function: no exception escapes), and whenever the generative boundary fails
(exception, no brace substring, or unparseable extract) the response is
fallback-derived with every required key populated and `urgency_level` drawn
from {emergency, urgent, routine} (given that stored severities are
well-formed).  When the boundary output parses as a JSON object, however,
the code returns that object as-is (plus `query_metadata`), so the
required-keys guarantee holds only for the fallback paths. -/
theorem process_query_fallback_totality (rag : SnoutiqRAG)
    (f : String → Nat → List (ℚ × Nat)) (pet_details : PetDetails) (query : String)
    (llm : LLMResult) (jsonLoads : String → Option ResponseObj) (now : String)
    (hsev : ∀ m ∈ rag.metadata,
      m.severity.getD "routine" ∈ (["emergency", "urgent", "routine"] : List String))
    (hfail : llmFailed llm jsonLoads) :
    (∀ k ∈ requiredKeys,
      (getKey (process_query rag f pet_details query llm jsonLoads now) k).isSome
        = true) ∧
    (∃ u, getKey (process_query rag f pet_details query llm jsonLoads now)
        "urgency_level" = some (.str u) ∧
      u ∈ (["emergency", "urgent", "routine"] : List String)) := by
  rw [process_query_eq]
  have hsevms : ∀ top rest,
      search rag f query (speciesFilter pet_details) TOP_K = top :: rest →
      top.metadata.severity.getD "routine"
        ∈ (["emergency", "urgent", "routine"] : List String) := by
    intro top rest hms
    have htop : top ∈ search rag f query (speciesFilter pet_details) TOP_K := by
      rw [hms]; exact List.mem_cons_self _ _
    rcases metadata_of_mem_search htop with hdef | hmem
    · rw [hdef]; decide
    · exact hsev _ hmem
  rcases generate_response_of_failed pet_details query
      (search rag f query (speciesFilter pet_details) TOP_K) llm jsonLoads now hfail
    with heq | heq <;> rw [heq]
  · refine ⟨fallback_has_required _ _ _, ?_⟩
    rcases hms : search rag f query (speciesFilter pet_details) TOP_K with _ | ⟨top, rest⟩
    · refine ⟨if detect_emergency query then "urgent" else "routine", ?_, ?_⟩
      · exact fallback_urgency _ _ _
      · cases detect_emergency query <;> decide
    · exact ⟨top.metadata.severity.getD "routine", fallback_urgency _ _ _,
        hsevms top rest hms⟩
  · have hpres : ∀ k, k ≠ "query_metadata" →
        getKey (setKey (_create_fallback_response pet_details
            (search rag f query (speciesFilter pet_details) TOP_K)
            (detect_emergency query)) "query_metadata"
          (.meta (mkQueryMetadata now
            (search rag f query (speciesFilter pet_details) TOP_K)
            (detect_emergency query)))) k =
        getKey (_create_fallback_response pet_details
          (search rag f query (speciesFilter pet_details) TOP_K)
          (detect_emergency query)) k := by
      intro k hk
      exact getKey_setKey_of_ne hk _ _
    refine ⟨?_, ?_⟩
    · intro k hk
      have hkne : k ≠ "query_metadata" := by fin_cases hk <;> decide
      rw [hpres k hkne]
      exact fallback_has_required _ _ _ k hk
    · rw [hpres "urgency_level" (by decide)]
      rcases hms : search rag f query (speciesFilter pet_details) TOP_K
        with _ | ⟨top, rest⟩
      · refine ⟨if detect_emergency query then "urgent" else "routine", ?_, ?_⟩
        · exact fallback_urgency _ _ _
        · cases detect_emergency query <;> decide
      · exact ⟨top.metadata.severity.getD "routine", fallback_urgency _ _ _,
          hsevms top rest hms⟩

/-- Witness for the amended C2: a concrete loaded corpus with a raising
boundary. -/
theorem process_query_fallback_totality_witness :
    (∀ k ∈ requiredKeys,
      (getKey (process_query rag1 idxSearch1 petDog "my dog is vomiting" .exc
        jsonLoadsDemo "t0") k).isSome = true) ∧
    (∃ u, getKey (process_query rag1 idxSearch1 petDog "my dog is vomiting" .exc
        jsonLoadsDemo "t0") "urgency_level" = some (.str u) ∧
      u ∈ (["emergency", "urgent", "routine"] : List String)) :=
  process_query_fallback_totality rag1 idxSearch1 petDog "my dog is vomiting"
    .exc jsonLoadsDemo "t0" (by decide) (Or.inl rfl)

/-- **C3** counterexample: with nothing loaded, `search` does return `[]`,
but if the generative boundary happens to return the valid JSON text
`\x7b"confidence": "high"\x7d`, `process_query` returns that parsed object
(confidence "high"), not the no-match fallback template with confidence
"low". -/
theorem process_query_unloaded_not_always_fallback :
    search rag0 idxSearch0 "my dog is limping" (some "dogs") TOP_K = [] ∧
    getKey (process_query rag0 idxSearch0 pet0 "my dog is limping"
        (.ok "\x7b\"confidence\": \"high\"\x7d") jsonLoadsDemo "t0") "confidence"
      = some (.str "high") := ⟨rfl, rfl⟩

/-- **C3** (amended): with no entries loaded, `search` returns `[]` for
every query, species filter and count; and `process_query` returns the
no-match fallback template (confidence "low", possibly with
`query_metadata` attached) whenever the generative boundary fails or its
output contains no parseable JSON object.  (When the boundary returns a
parseable object, that object is returned instead.) -/
theorem unloaded_search_and_fallback (rag : SnoutiqRAG)
    (f : String → Nat → List (ℚ × Nat)) (query : String) (species : Option String)
    (top_k : Nat) (pet_details : PetDetails) (llm : LLMResult)
    (jsonLoads : String → Option ResponseObj) (now : String)
    (hnl : rag.loaded = false) (hfail : llmFailed llm jsonLoads) :
    search rag f query species top_k = [] ∧
    getKey (process_query rag f pet_details query llm jsonLoads now) "confidence"
      = some (.str "low") ∧
    (process_query rag f pet_details query llm jsonLoads now =
      _create_fallback_response pet_details [] (detect_emergency query) ∨
     process_query rag f pet_details query llm jsonLoads now =
      setKey (_create_fallback_response pet_details [] (detect_emergency query))
        "query_metadata" (.meta (mkQueryMetadata now [] (detect_emergency query)))) := by
  have hs0 : ∀ sp k, search rag f query sp k = [] := fun sp k => search_not_loaded hnl
  have hpq : process_query rag f pet_details query llm jsonLoads now =
      generate_response pet_details query [] llm jsonLoads now := by
    rw [process_query_eq, hs0]
  rcases generate_response_of_failed pet_details query [] llm jsonLoads now hfail
    with heq | heq
  · refine ⟨hs0 species top_k, ?_, Or.inl (hpq.trans heq)⟩
    rw [hpq, heq]; rfl
  · refine ⟨hs0 species top_k, ?_, Or.inr (hpq.trans heq)⟩
    rw [hpq, heq, getKey_setKey_of_ne (by decide) _ _]; rfl

/-- Witness for the amended C3: concrete unloaded state with a raising
boundary. -/
theorem unloaded_search_and_fallback_witness :
    search rag0 idxSearch0 "my cat is coughing" none TOP_K = [] ∧
    getKey (process_query rag0 idxSearch0 pet0 "my cat is coughing" .exc
      jsonLoadsNone "t0") "confidence" = some (.str "low") ∧
    (process_query rag0 idxSearch0 pet0 "my cat is coughing" .exc jsonLoadsNone "t0" =
      _create_fallback_response pet0 [] (detect_emergency "my cat is coughing") ∨
     process_query rag0 idxSearch0 pet0 "my cat is coughing" .exc jsonLoadsNone "t0" =
      setKey (_create_fallback_response pet0 [] (detect_emergency "my cat is coughing"))
        "query_metadata"
        (.meta (mkQueryMetadata "t0" [] (detect_emergency "my cat is coughing")))) :=
  unloaded_search_and_fallback rag0 idxSearch0 "my cat is coughing" none TOP_K
    pet0 .exc jsonLoadsNone "t0" rfl (Or.inl rfl)

/-- **C5**: with a non-empty match list and a failed generative boundary
(exception, no brace substring, or unparseable extract), the response is
derived from the single top-ranked match metadata: confidence "medium",
urgency_level equal to that match severity (default "routine"),
service_recommendation taken from its metadata (default "video_consult"),
and what_we_found equal to its description. -/
theorem fallback_top_match_fields (pet_details : PetDetails) (query : String)
    (top : SearchResult) (rest : List SearchResult) (llm : LLMResult)
    (jsonLoads : String → Option ResponseObj) (now : String)
    (hfail : llmFailed llm jsonLoads) :
    getKey (generate_response pet_details query (top :: rest) llm jsonLoads now)
      "confidence" = some (.str "medium") ∧
    getKey (generate_response pet_details query (top :: rest) llm jsonLoads now)
      "urgency_level" = some (.str (top.metadata.severity.getD "routine")) ∧
    getKey (generate_response pet_details query (top :: rest) llm jsonLoads now)
      "service_recommendation" =
      some (.str (top.metadata.service_recommendation.getD "video_consult")) ∧
    getKey (generate_response pet_details query (top :: rest) llm jsonLoads now)
      "what_we_found" = some (.str (top.metadata.description.getD "")) := by
  rcases generate_response_of_failed pet_details query (top :: rest) llm jsonLoads
      now hfail with heq | heq <;> rw [heq]
  · exact ⟨rfl, rfl, rfl, rfl⟩
  · rw [getKey_setKey_of_ne (by decide) _ _, getKey_setKey_of_ne (by decide) _ _,
      getKey_setKey_of_ne (by decide) _ _, getKey_setKey_of_ne (by decide) _ _]
    exact ⟨rfl, rfl, rfl, rfl⟩

/-- Witness for C5: concrete one-match list with a raising boundary. -/
theorem fallback_top_match_fields_witness :
    getKey (generate_response petDog "my dog is vomiting" [r1val] .exc
      jsonLoadsNone "t0") "confidence" = some (.str "medium") ∧
    getKey (generate_response petDog "my dog is vomiting" [r1val] .exc
      jsonLoadsNone "t0") "urgency_level" = some (.str "urgent") ∧
    getKey (generate_response petDog "my dog is vomiting" [r1val] .exc
      jsonLoadsNone "t0") "service_recommendation" = some (.str "in_clinic") ∧
    getKey (generate_response petDog "my dog is vomiting" [r1val] .exc
      jsonLoadsNone "t0") "what_we_found" = some (.str "dog vomiting repeatedly") :=
  fallback_top_match_fields petDog "my dog is vomiting" r1val [] .exc
    jsonLoadsNone "t0" (Or.inl rfl)

/-- **C6**: the no-match fallback is the fixed conservative template:
confidence "low", urgency_level "urgent" when the emergency flag is set and
"routine" otherwise, service_recommendation "in_clinic" when the flag is set
and "video_consult" otherwise; beyond the pet name it depends on nothing
else. -/
theorem no_match_fallback_template (pet_details : PetDetails) (is_emergency : Bool) :
    getKey (_create_fallback_response pet_details [] is_emergency) "confidence"
      = some (.str "low") ∧
    getKey (_create_fallback_response pet_details [] is_emergency) "urgency_level"
      = some (.str (if is_emergency then "urgent" else "routine")) ∧
    getKey (_create_fallback_response pet_details [] is_emergency)
        "service_recommendation"
      = some (.str (if is_emergency then "in_clinic" else "video_consult")) ∧
    _create_fallback_response pet_details [] is_emergency =
      _create_fallback_response { name := pet_details.name } [] is_emergency :=
  ⟨rfl, rfl, rfl, rfl⟩

/-- **C8**: every result returned under a (non-empty, i.e. truthy) species
filter has metadata whose species field case-insensitively equals the filter
value. -/
theorem species_filter_correct (rag : SnoutiqRAG)
    (f : String → Nat → List (ℚ × Nat)) (query : String) (sp : String)
    (top_k : Nat) (r : SearchResult) (hsp : sp ≠ "")
    (hr : r ∈ search rag f query (some sp) top_k) :
    strLower (r.metadata.species.getD "") = strLower sp := by
  obtain ⟨-, cand, -, hco⟩ := exists_cand_of_mem_search hr
  obtain ⟨-, hmm2, rfl⟩ := candidateOf_eq_some.mp hco
  by_cases heq : strLower ((rag.metadata.getD cand.2 default).species.getD "")
      = strLower sp
  · exact heq
  · exfalso
    simp only [speciesMismatch, hsp, if_false] at hmm2
    split at hmm2
    · next hpos => exact heq hpos
    · exact Bool.true_eq_false.mp hmm2

/-- Witness for C8 at the concrete one-entry corpus (species "Dogs",
filter "dogs"). -/
theorem species_filter_correct_witness :
    strLower (r1val.metadata.species.getD "") = strLower "dogs" :=
  species_filter_correct rag1 idxSearch1 "my dog is vomiting" "dogs" TOP_K r1val
    (by decide) (by rw [search_rag1_eval]; exact List.mem_singleton.mpr rfl)

/-- **C9**: every returned result was admitted from a candidate whose raw
(unboosted) similarity score is at least `MIN_SIMILARITY = 0.3` (candidates
below the threshold are discarded), the stored score being that raw score
times the severity boost of the matched entry. -/
theorem threshold_admission (rag : SnoutiqRAG)
    (f : String → Nat → List (ℚ × Nat)) (query : String) (species : Option String)
    (top_k : Nat) (r : SearchResult)
    (hr : r ∈ search rag f query species top_k) :
    ∃ s idx,
      (s, idx) ∈ f (expand_query query) (min (top_k * 2) rag.documents.length) ∧
      MIN_SIMILARITY ≤ s ∧
      r.score = s *
        SEVERITY_BOOST ((rag.metadata.getD idx default).severity.getD "routine") := by
  obtain ⟨-, cand, hc, hco⟩ := exists_cand_of_mem_search hr
  obtain ⟨h1, -, rfl⟩ := candidateOf_eq_some.mp hco
  exact ⟨cand.1, cand.2, hc, not_lt.mp h1, rfl⟩

/-- Witness for C9 at the concrete one-entry corpus. -/
theorem threshold_admission_witness :
    ∃ s idx,
      (s, idx) ∈ idxSearch1 (expand_query "my dog is vomiting")
        (min (TOP_K * 2) rag1.documents.length) ∧
      MIN_SIMILARITY ≤ s ∧
      r1val.score = s *
        SEVERITY_BOOST ((rag1.metadata.getD idx default).severity.getD "routine") :=
  threshold_admission rag1 idxSearch1 "my dog is vomiting" (some "dogs") TOP_K
    r1val (by rw [search_rag1_eval]; exact List.mem_singleton.mpr rfl)

/-- In a list sorted non-increasingly by score, an entry found at a later
position scores no more than one found at an earlier position. -/
theorem pairwise_score_le_of_getElem? {l : List SearchResult}
    (hl : l.Pairwise (fun a b => b.score ≤ a.score)) {p q : Nat}
    {a b : SearchResult} (hp : l[p]? = some a) (hq : l[q]? = some b)
    (hpq : p < q) : b.score ≤ a.score := by
  obtain ⟨hplen, hpe⟩ := List.getElem?_eq_some_iff.mp hp
  obtain ⟨hqlen, hqe⟩ := List.getElem?_eq_some_iff.mp hq
  rw [List.pairwise_iff_getElem] at hl
  have hmono := hl p q hplen hqlen hpq
  rw [hpe, hqe] at hmono
  exact hmono

/-- **C7**: for two candidates with equal raw score `s ≥ 0.3`, both passing
the species filter, with severities "emergency" and "routine", the emergency
candidate is boosted to `s * 1.5` and the routine one to `s * 1.0`; in the
returned list every occurrence of the emergency result strictly precedes
every occurrence of the routine result, and whenever the routine result is
returned the emergency result is returned as well. -/
theorem emergency_outranks_routine (rag : SnoutiqRAG)
    (f : String → Nat → List (ℚ × Nat)) (query : String) (species : Option String)
    (top_k : Nat) (s : ℚ) (i j : Nat)
    (hload : rag.loaded = true)
    (hi : (s, i) ∈ f (expand_query query) (min (top_k * 2) rag.documents.length))
    (hj : (s, j) ∈ f (expand_query query) (min (top_k * 2) rag.documents.length))
    (hs : MIN_SIMILARITY ≤ s)
    (hsevi : (rag.metadata.getD i default).severity = some "emergency")
    (hsevj : (rag.metadata.getD j default).severity = some "routine")
    (hspi : speciesMismatch species (rag.metadata.getD i default) = false)
    (hspj : speciesMismatch species (rag.metadata.getD j default) = false) :
    (boostedResult rag s i).score = s * (3 / 2) ∧
    (boostedResult rag s j).score = s * 1 ∧
    candidateOf rag species (s, i) = some (boostedResult rag s i) ∧
    candidateOf rag species (s, j) = some (boostedResult rag s j) ∧
    (∀ p q : Nat,
      (search rag f query species top_k)[p]? = some (boostedResult rag s i) →
      (search rag f query species top_k)[q]? = some (boostedResult rag s j) →
      p < q) ∧
    (boostedResult rag s j ∈ search rag f query species top_k →
      boostedResult rag s i ∈ search rag f query species top_k) := by
  have hbi : (boostedResult rag s i).score = s * (3 / 2) := by
    simp only [boostedResult, hsevi, Option.getD_some]
    rfl
  have hbj : (boostedResult rag s j).score = s * 1 := by
    simp only [boostedResult, hsevj, Option.getD_some]
    rfl
  have hcandi : candidateOf rag species (s, i) = some (boostedResult rag s i) :=
    candidateOf_eq_some.mpr ⟨not_lt.mpr hs, hspi, rfl⟩
  have hcandj : candidateOf rag species (s, j) = some (boostedResult rag s j) :=
    candidateOf_eq_some.mpr ⟨not_lt.mpr hs, hspj, rfl⟩
  have hspos : 0 < s := lt_of_lt_of_le (by norm_num [MIN_SIMILARITY]) hs
  have hlt : (boostedResult rag s j).score < (boostedResult rag s i).score := by
    rw [hbi, hbj]
    exact mul_lt_mul_of_pos_left (by norm_num) hspos
  have hne : boostedResult rag s i ≠ boostedResult rag s j := by
    intro h
    rw [h] at hlt
    exact lt_irrefl _ hlt
  refine ⟨hbi, hbj, hcandi, hcandj, ?_, ?_⟩
  · intro p q hp hq
    by_contra hpq
    push_neg at hpq
    rcases eq_or_lt_of_le hpq with heqq | hlt2
    · subst heqq
      exact hne (Option.some.inj (hp.symm.trans hq))
    · have hmono := pairwise_score_le_of_getElem?
        (search_sorted rag f query species top_k) hq hp hlt2
      exact absurd hmono (not_le.mpr hlt)
  · intro hmem
    rw [search_eq_of_loaded hload] at hmem ⊢
    set results := (f (expand_query query)
      (min (top_k * 2) rag.documents.length)).filterMap (candidateOf rag species)
      with hres
    have hei_results : boostedResult rag s i ∈ results :=
      List.mem_filterMap.mpr ⟨(s, i), hi, hcandi⟩
    have hei_sorted : boostedResult rag s i ∈ results.mergeSort scoreGe :=
      (List.mergeSort_perm results scoreGe).mem_iff.mpr hei_results
    obtain ⟨pi, hpi⟩ := List.mem_iff_getElem?.mp hei_sorted
    obtain ⟨qj, hqj⟩ := List.mem_iff_getElem?.mp hmem
    have hqj_top : qj < top_k := by
      obtain ⟨hlen, -⟩ := List.getElem?_eq_some_iff.mp hqj
      rw [List.length_take] at hlen
      exact lt_of_lt_of_le hlen (min_le_left _ _)
    have hqj_sorted : (results.mergeSort scoreGe)[qj]? = some (boostedResult rag s j) := by
      rw [List.getElem?_take_of_lt hqj_top] at hqj
      exact hqj
    have hpi_lt_qj : pi < qj := by
      by_contra hc
      push_neg at hc
      rcases eq_or_lt_of_le hc with heqq | hlt2
      · subst heqq
        exact hne (Option.some.inj (hpi.symm.trans hqj_sorted))
      · have hmono := pairwise_score_le_of_getElem?
          (mergeSort_scoreGe_pairwise results) hqj_sorted hpi hlt2
        exact absurd hmono (not_le.mpr hlt)
    have hfin : ((results.mergeSort scoreGe).take top_k)[pi]?
        = some (boostedResult rag s i) := by
      rw [List.getElem?_take_of_lt (lt_trans hpi_lt_qj hqj_top)]
      exact hpi
    exact List.getElem?_mem hfin

/-- A two-entry corpus for the C7 witness: an emergency entry and a routine
entry about dogs. -/
def mEmergency : Meta :=
  { symptom := some "seizure", description := some "dog seizure"
    severity := some "emergency", species := some "dogs" }

def mRoutine : Meta :=
  { symptom := some "mild itch", description := some "dog itching"
    severity := some "routine", species := some "dogs" }

def rag2 : SnoutiqRAG :=
  { documents := ["seizure. dog seizure", "mild itch. dog itching"]
    metadata := [mEmergency, mRoutine]
    index := some [[1], [1]]
    loaded := true }

/-- An index boundary returning both entries with equal similarity 1/2 (the
routine entry first, so the ordering statement is not vacuous). -/
def idxSearch2 : String → Nat → List (ℚ × Nat) :=
  fun _ _ => [((1 : ℚ) / 2, 1), ((1 : ℚ) / 2, 0)]

/-- Witness for C7 at the concrete two-entry corpus. -/
theorem emergency_outranks_routine_witness :
    (boostedResult rag2 (1 / 2) 0).score = 1 / 2 * (3 / 2) ∧
    (boostedResult rag2 (1 / 2) 1).score = 1 / 2 * 1 ∧
    candidateOf rag2 none (1 / 2, 0) = some (boostedResult rag2 (1 / 2) 0) ∧
    candidateOf rag2 none (1 / 2, 1) = some (boostedResult rag2 (1 / 2) 1) ∧
    (∀ p q : Nat,
      (search rag2 idxSearch2 "my dog had a seizure" none TOP_K)[p]?
        = some (boostedResult rag2 (1 / 2) 0) →
      (search rag2 idxSearch2 "my dog had a seizure" none TOP_K)[q]?
        = some (boostedResult rag2 (1 / 2) 1) →
      p < q) ∧
    (boostedResult rag2 (1 / 2) 1 ∈ search rag2 idxSearch2 "my dog had a seizure"
        none TOP_K →
      boostedResult rag2 (1 / 2) 0 ∈ search rag2 idxSearch2 "my dog had a seizure"
        none TOP_K) :=
  emergency_outranks_routine rag2 idxSearch2 "my dog had a seizure" none TOP_K
    (1 / 2) 0 1 rfl
    (List.mem_cons_of_mem _ (List.mem_cons_self _ _))
    (List.mem_cons_self _ _)
    (by norm_num [MIN_SIMILARITY]) rfl rfl rfl rfl

/-- The per-file loop contributes nothing when every source is skipped or
yields zero entries. -/
theorem foldl_loadStep_of_no_entries (files : List DatasetSource)
    (h : ∀ fl ∈ files, fl.parsed = none ∨ fl.parsed = some []) :
    ∀ acc, files.foldl loadStep acc = acc := by
  induction files with
  | nil => intro acc; rfl
  | cons fl rest ih =>
    intro acc
    have hf := h fl (List.mem_cons_self _ _)
    have hrest := fun g hg => h g (List.mem_cons_of_mem _ hg)
    rcases hf with hnone | hempty
    · simp only [List.foldl_cons, loadStep, hnone]
      exact ih hrest acc
    · simp only [List.foldl_cons, loadStep, hempty, List.map_nil, List.append_nil]
      exact ih hrest acc

/-- **C10**: starting from the freshly constructed state, `load_datasets`
over sources yielding zero entries returns `False` and leaves the state
untouched (documents/metadata empty, no index, `loaded` still false); and
whenever the returned state has `loaded = true`, the call returned `True`
and the index was fully built over exactly the stored documents (one
embedding per document, as many metadata records as documents). -/
theorem load_datasets_atomic (embedOne : String → List ℚ)
    (dataset_files : List DatasetSource) (rag : SnoutiqRAG)
    (hfresh : rag = {}) :
    ((∀ fl ∈ dataset_files, fl.parsed = none ∨ fl.parsed = some []) →
      load_datasets rag embedOne dataset_files = (false, rag)) ∧
    (∀ b rag2, load_datasets rag embedOne dataset_files = (b, rag2) →
      rag2.loaded = true →
      b = true ∧
      rag2.index = some (rag2.documents.map embedOne) ∧
      rag2.documents.length = rag2.metadata.length ∧
      (rag2.index.getD []).length = rag2.documents.length) := by
  constructor
  · intro hempty
    have hfold := foldl_loadStep_of_no_entries dataset_files hempty []
    simp only [load_datasets, hfold, List.isEmpty_nil, if_true]
  · intro b rag2 heq hld
    by_cases hp : (dataset_files.foldl loadStep []).isEmpty
    · simp only [load_datasets, hp, if_true] at heq
      injection heq with h1 h2
      subst h1
      subst h2
      rw [hfresh] at hld
      simp at hld
    · simp only [load_datasets, hp, Bool.false_eq_true, if_false] at heq
      injection heq with h1 h2
      subst h1
      subst h2
      refine ⟨rfl, rfl, by simp, by simp⟩

/-- Concrete sources yielding zero entries: one unreadable, one readable but
empty. -/
def filesEmpty : List DatasetSource :=
  [⟨"backend/datasets/master_unreadable_dataset.json", none⟩,
   ⟨"backend/datasets/master_empty_dataset.json", some []⟩]

/-- Witness for C10 on the zero-entry branch. -/
theorem load_datasets_atomic_witness :
    load_datasets ({} : SnoutiqRAG) (fun _ => [1]) filesEmpty = (false, {}) :=
  (load_datasets_atomic (fun _ => [1]) filesEmpty {} rfl).1 (by decide)

end SnoutiqSpec
